import Mathlib

/-!
CW2: the Client / FtpThread / Authenticator session protocol.

A shallow embedding of `CW2/main.go`.  Every goroutine body is a small
machine whose program points are the blocking receives of the source; a
message offered on one of its channels is either received (the machine moves
and performs its sends) or not received (the offering goroutine stays
suspended on its send).  Go `int` values are only stored and copied, never
computed with, so they are modelled as `Int`.
-/

namespace CW2

/-- The `User` struct: the credential pair sent on a user channel. -/
structure User where
  userid : String
  passwd : String
deriving DecidableEq, Repr

/-- The `Actions` struct has one channel per selection; a value of this type is
one send on `get` (carrying a fresh reply channel), on `put` (carrying the
value) or on `bye`. -/
inductive Action where
  | get : Action
  | put (value : Int) : Action
  | bye : Action
deriving DecidableEq, Repr

/-- The selection an Authenticator worker makes: a send on `x.valid` or on
`x.invalid` of its `AuthenticatorPrivate`. -/
inductive AuthSignal where
  | valid : AuthSignal
  | invalid : AuthSignal
deriving DecidableEq, Repr

/-- Body of the goroutine started by `Authenticator` (main.go 216-228), after
it has received `user` on `x.userChannel`: the sends it performs, in order. -/
def Authenticator (user : User) : List AuthSignal :=
  let pw := "123456"
  if user.passwd == pw then
    [AuthSignal.valid]
  else
    [AuthSignal.invalid]

/-- What a session worker of `FtpThread` can be offered on the channels it
holds: a credential on `z.userChannel`, a signal on `s.valid` or `s.invalid`,
or an action on one of `z.actions`. -/
inductive Msg where
  | user (u : User) : Msg
  | valid : Msg
  | invalid : Msg
  | act (a : Action) : Msg
deriving DecidableEq, Repr

/-- The sends a session worker of `FtpThread` performs: the credential
forwarded to the Authenticator (`nis <- s` then `s.userChannel <- user`),
`z.welcome <- 0`, `z.sorry <- 0` (named `sorrySig` here), and `channel <- x`
on the reply channel of a GET. -/
inductive Out where
  | auth (u : User) : Out
  | welcome : Out
  | sorrySig : Out
  | reply (x : Int) : Out
deriving DecidableEq, Repr

/-- Program points of the goroutine started by `FtpThread` (main.go 166-196):
`recvUser` is the receive of line 168, `waitAuth` the select of line 175,
`session x` the select of line 182 with stored variable `x`, and `done` the
goroutine having returned. -/
inductive FtpThread where
  | recvUser : FtpThread
  | waitAuth : FtpThread
  | session (x : Int) : FtpThread
  | done : FtpThread
deriving DecidableEq, Repr

/-- One receive of the session worker: the next program point and the sends it
performs on the way, or `none` when the worker has no receive for that message
at this point (the send is never matched). -/
def FtpThread.step : FtpThread → Msg → Option (FtpThread × List Out)
  | FtpThread.recvUser, Msg.user u => some (FtpThread.waitAuth, [Out.auth u])
  | FtpThread.waitAuth, Msg.valid => some (FtpThread.session 0, [Out.welcome])
  | FtpThread.waitAuth, Msg.invalid => some (FtpThread.done, [Out.sorrySig])
  | FtpThread.session x, Msg.act Action.get => some (FtpThread.session x, [Out.reply x])
  | FtpThread.session _, Msg.act (Action.put value) => some (FtpThread.session value, [])
  | FtpThread.session _, Msg.act Action.bye => some (FtpThread.done, [])
  | _, _ => none

/-- A worker together with what it has done so far: its program point, its
sends in order, how many messages it has received, and whether a message
offered to it was left unreceived (its sender is then suspended for good and
offers nothing further). -/
structure Run where
  state : FtpThread
  outs : List Out
  served : Nat
  blocked : Bool
deriving DecidableEq, Repr

/-- A freshly placed worker at program point `w`. -/
def Run.start (w : FtpThread) : Run :=
  { state := w, outs := [], served := 0, blocked := false }

/-- Offer one message to a worker. -/
def Run.feed (r : Run) (m : Msg) : Run :=
  if r.blocked then r
  else
    match r.state.step m with
    | none => { r with blocked := true }
    | some (w, o) =>
      { state := w, outs := r.outs ++ o, served := r.served + 1, blocked := false }

/-- Offer a sequence of messages, in order. -/
def Run.feedAll (r : Run) (ms : List Msg) : Run :=
  ms.foldl Run.feed r

/-- The signal sent to a worker by the Authenticator selection. -/
def AuthSignal.toMsg : AuthSignal → Msg
  | AuthSignal.valid => Msg.valid
  | AuthSignal.invalid => Msg.invalid

/-- The signals that come back for the credentials a worker forwarded: every
`Out.auth u` reaches an Authenticator worker, which answers `Authenticator u`. -/
def authReplies : List Out → List Msg
  | [] => []
  | Out.auth u :: os => (Authenticator u).map AuthSignal.toMsg ++ authReplies os
  | _ :: os => authReplies os

/-- One connection handled by `FtpThread`: a new worker receives the client's
credential, the Authenticator answers the forwarded credential, and the client
then offers the actions `ops` in order. -/
def connect (u : User) (ops : List Action) : Run :=
  let r := (Run.start FtpThread.recvUser).feed (Msg.user u)
  (r.feedAll (authReplies r.outs)).feedAll (ops.map Msg.act)

/-- The welcome/sorry selections among a worker's sends. -/
def signals (os : List Out) : List Out :=
  os.filter (fun o => o == Out.welcome || o == Out.sorrySig)

/-- The values sent on GET reply channels among a worker's sends. -/
def replies : List Out → List Int
  | [] => []
  | Out.reply x :: os => x :: replies os
  | _ :: os => replies os

/-- The credential the Client sends on `s.userChannel` (main.go 91). -/
def Client.user : User :=
  { userid := "wcl16", passwd := "123456" }

/-- The `options` array of the Client (main.go 101). -/
def Client.options : List Int :=
  [0, 1, 0, 1, 0, 0, 1, 2, 1, 0]

/-- The loop of main.go 104-124 over the options still to be read, as the
actions it sends.  `rand n` is the value returned by the call to `rand.Intn`
that follows `n` earlier calls.  Option 0 selects GET, option 1 selects PUT of
a newly generated value, and any other option selects BYE and breaks. -/
def Client.loop (rand : Nat → Int) : Nat → List Int → List Action
  | _, [] => []
  | n, option :: rest =>
    if option == 0 then
      Action.get :: Client.loop rand n rest
    else if option == 1 then
      Action.put (rand n) :: Client.loop rand (n + 1) rest
    else
      [Action.bye]

/-- The select of main.go 94-125: on `welcome` the Client runs its loop, on
`sorry` it only prints; it receives nothing else there. -/
def Client.onSignal (rand : Nat → Int) (options : List Int) : Out → List Action
  | Out.welcome => Client.loop rand 0 options
  | _ => []

/-- The program of `main`: the one Client connects with its credential, and
what it offers afterwards is decided by the selection it receives. -/
def mainRun (rand : Nat → Int) : Run :=
  match signals (connect Client.user []).outs with
  | [] => connect Client.user []
  | sig :: _ => connect Client.user (Client.onSignal rand Client.options sig)

/-! ## Reference semantics, written from the specification -/

/-- The value a PUT carries, if the action is a PUT. -/
def putValue? : Action → Option Int
  | Action.put v => some v
  | _ => none

/-- The value of the most recent PUT among the actions `before`, or the
default 0 when none of them is a PUT. -/
def mostRecentPut (before : List Action) : Int :=
  (before.reverse.findSome? putValue?).getD 0

/-- What the GETs of `ops` are expected to return, in order: for each position
holding a GET, the most recent PUT value among the actions before it. -/
def expectedReplies (ops : List Action) : List Int :=
  (List.range ops.length).filterMap
    (fun i => if ops[i]? = some Action.get then some (mostRecentPut (ops.take i)) else none)

/-- The three selections of the Client loop. -/
inductive Kind where
  | get : Kind
  | put : Kind
  | bye : Kind
deriving DecidableEq, Repr

/-- The selection an action is. -/
def Action.kind : Action → Kind
  | Action.get => Kind.get
  | Action.put _ => Kind.put
  | Action.bye => Kind.bye

/-- The selection a script entry stands for: 0 is GET, 1 is PUT, and every
other entry is BYE (2 in the script of the source). -/
def optionKind (o : Int) : Kind :=
  if o = 0 then Kind.get else if o = 1 then Kind.put else Kind.bye

/-- The entries of a script up to and including its first BYE entry; the whole
script when it has no BYE entry. -/
def throughFirstBye (options : List Int) : List Int :=
  options.take (options.findIdx (fun o => optionKind o == Kind.bye) + 1)

/-! ## Auxiliary facts -/

theorem Authenticator_eq (u : User) :
    Authenticator u =
      if u.passwd = "123456" then [AuthSignal.valid] else [AuthSignal.invalid] := by
  simp [Authenticator]

theorem Run.feedAll_nil (r : Run) : r.feedAll [] = r := rfl

theorem Run.feedAll_cons (r : Run) (m : Msg) (ms : List Msg) :
    r.feedAll (m :: ms) = (r.feed m).feedAll ms := rfl

theorem Run.feedAll_append (r : Run) (xs ys : List Msg) :
    r.feedAll (xs ++ ys) = (r.feedAll xs).feedAll ys := by
  simp [Run.feedAll, List.foldl_append]

theorem connect_append (u : User) (xs ys : List Action) :
    connect u (xs ++ ys) = (connect u xs).feedAll (ys.map Msg.act) := by
  simp [connect, Run.feedAll_append]

theorem connect_nil_valid (u : User) (h : u.passwd = "123456") :
    connect u [] =
      { state := FtpThread.session 0, outs := [Out.auth u, Out.welcome], served := 2,
        blocked := false } := by
  simp [connect, Run.start, Run.feed, Run.feedAll, FtpThread.step, authReplies,
    Authenticator_eq, h, AuthSignal.toMsg]

theorem connect_nil_invalid (u : User) (h : u.passwd ≠ "123456") :
    connect u [] =
      { state := FtpThread.done, outs := [Out.auth u, Out.sorrySig], served := 2,
        blocked := false } := by
  simp [connect, Run.start, Run.feed, Run.feedAll, FtpThread.step, authReplies,
    Authenticator_eq, h, AuthSignal.toMsg]

theorem FtpThread.step_done (m : Msg) : FtpThread.step FtpThread.done m = none := by
  cases m <;> rfl

/-- Once a worker has returned, offering it messages changes nothing but the
record that a sender was left waiting. -/
theorem Run.feedAll_done (r : Run) (h : r.state = FtpThread.done) (ms : List Msg) :
    (r.feedAll ms).state = FtpThread.done ∧ (r.feedAll ms).outs = r.outs ∧
      (r.feedAll ms).served = r.served := by
  induction ms generalizing r with
  | nil => exact ⟨h, rfl, rfl⟩
  | cons m ms ih =>
    rw [Run.feedAll_cons]
    have hf : (r.feed m).state = FtpThread.done ∧ (r.feed m).outs = r.outs ∧
        (r.feed m).served = r.served := by
      unfold Run.feed
      split
      · exact ⟨h, rfl, rfl⟩
      · rw [h, FtpThread.step_done]
        exact ⟨rfl, rfl, rfl⟩
    obtain ⟨h1, h2, h3⟩ := ih (r.feed m) hf.1
    exact ⟨h1, h2.trans hf.2.1, h3.trans hf.2.2⟩

theorem mostRecentPut_snoc_put (ops : List Action) (v : Int) :
    mostRecentPut (ops ++ [Action.put v]) = v := by
  simp [mostRecentPut, List.reverse_concat, List.findSome?_cons, putValue?]

theorem mostRecentPut_snoc_get (ops : List Action) :
    mostRecentPut (ops ++ [Action.get]) = mostRecentPut ops := by
  simp [mostRecentPut, List.reverse_concat, List.findSome?_cons, putValue?]

theorem expectedReplies_snoc (ops : List Action) (a : Action) :
    expectedReplies (ops ++ [a]) =
      expectedReplies ops ++ (if a = Action.get then [mostRecentPut ops] else []) := by
  unfold expectedReplies
  rw [List.length_append, List.length_singleton, List.range_succ, List.filterMap_append]
  congr 1
  · apply List.filterMap_congr
    intro i hi
    have hlt : i < ops.length := List.mem_range.mp hi
    rw [List.getElem?_append_left hlt, List.take_append_of_le_length (Nat.le_of_lt hlt)]
  · simp only [List.filterMap_cons, List.filterMap_nil, List.getElem?_concat_length,
      List.take_left, Option.some.injEq]
    by_cases h : a = Action.get <;> simp [h]

/-- An accepted session that has been offered GETs and PUTs only is at its
select with the most recent PUT value stored, has answered every GET with the
value stored at that time, and has received every message. -/
theorem connect_session (u : User) (hu : u.passwd = "123456") (ops : List Action)
    (hops : Action.bye ∉ ops) :
    connect u ops =
      { state := FtpThread.session (mostRecentPut ops),
        outs := Out.auth u :: Out.welcome :: (expectedReplies ops).map Out.reply,
        served := ops.length + 2,
        blocked := false } := by
  induction ops using List.reverseRecOn with
  | nil => simpa [mostRecentPut, expectedReplies] using connect_nil_valid u hu
  | append_singleton ops a ih =>
    have hops1 : Action.bye ∉ ops := fun h => hops (List.mem_append_left _ h)
    have ha : a ≠ Action.bye := fun h => hops (by simp [h])
    rw [connect_append, ih hops1, expectedReplies_snoc]
    cases a with
    | get =>
      simp [Run.feedAll, Run.feed, FtpThread.step, mostRecentPut_snoc_get]
    | put v =>
      simp [Run.feedAll, Run.feed, FtpThread.step, mostRecentPut_snoc_put]
    | bye => exact absurd rfl ha

theorem signals_feed_act (r : Run) (a : Action) :
    signals (r.feed (Msg.act a)).outs = signals r.outs := by
  unfold Run.feed
  split
  · rfl
  · rcases r with ⟨w, os, k, b⟩
    cases w <;> cases a <;> simp [FtpThread.step, signals, List.filter_append]

theorem signals_feedAll_act (r : Run) (ops : List Action) :
    signals (r.feedAll (ops.map Msg.act)).outs = signals r.outs := by
  induction ops generalizing r with
  | nil => rfl
  | cons a ops ih =>
    rw [List.map_cons, Run.feedAll_cons, ih, signals_feed_act]

theorem replies_session_outs (u : User) (l : List Int) :
    replies (Out.auth u :: Out.welcome :: l.map Out.reply) = l := by
  have h : ∀ l : List Int, replies (l.map Out.reply) = l := by
    intro l
    induction l with
    | nil => rfl
    | cons x l ih => simp [replies, ih]
  simp [replies, h]

theorem throughFirstBye_cons (o : Int) (rest : List Int) :
    throughFirstBye (o :: rest) =
      if optionKind o = Kind.bye then [o] else o :: throughFirstBye rest := by
  unfold throughFirstBye
  rw [List.findIdx_cons]
  by_cases h : optionKind o = Kind.bye
  · have hb : (optionKind o == Kind.bye) = true := by simp [h]
    rw [hb, if_pos h]
    rfl
  · have hb : (optionKind o == Kind.bye) = false := by simp [h]
    rw [hb, if_neg h]
    rfl

theorem Client.loop_kinds (rand : Nat → Int) (n : Nat) (options : List Int) :
    (Client.loop rand n options).map Action.kind =
      (throughFirstBye options).map optionKind := by
  induction options generalizing n with
  | nil => rfl
  | cons o rest ih =>
    rw [throughFirstBye_cons]
    unfold Client.loop
    by_cases h0 : o = 0
    · simp [h0, optionKind, Action.kind, ih]
    · by_cases h1 : o = 1
      · simp [h1, optionKind, Action.kind, ih]
      · simp [h0, h1, optionKind, Action.kind]

/-! ## The claims -/

/-- C1: for every credential and whatever actions follow, the session worker
of `FtpThread` sends exactly one selection on the connection, `welcome` when
`passwd` is "123456" and `sorry` otherwise, whatever the `userid`; the
Authenticator worker sends exactly one of `valid` / `invalid`, `valid` exactly
when `passwd` is "123456". -/
theorem exactly_one_signal (u : User) (ops : List Action) :
    signals (connect u ops).outs =
        (if u.passwd = "123456" then [Out.welcome] else [Out.sorrySig]) ∧
      Authenticator u =
        (if u.passwd = "123456" then [AuthSignal.valid] else [AuthSignal.invalid]) := by
  refine ⟨?_, Authenticator_eq u⟩
  have h := connect_append u [] ops
  rw [List.nil_append] at h
  rw [h, signals_feedAll_act]
  by_cases hp : u.passwd = "123456"
  · rw [connect_nil_valid u hp, if_pos hp]
    rfl
  · rw [connect_nil_invalid u hp, if_neg hp]
    rfl

/-- C2: in an accepted session that has served any sequence of GETs and PUTs
(no BYE), a PUT of `v` immediately followed by a GET is served in full and the
GET is answered with exactly `v`: the only send added is the reply `v`. -/
theorem put_get_roundtrip (u : User) (hu : u.passwd = "123456") (pre : List Action)
    (hpre : Action.bye ∉ pre) (v : Int) :
    (connect u (pre ++ [Action.put v, Action.get])).outs =
        (connect u pre).outs ++ [Out.reply v] ∧
      (connect u (pre ++ [Action.put v, Action.get])).served =
        (connect u pre).served + 2 := by
  have hsplit : pre ++ [Action.put v, Action.get] =
      (pre ++ [Action.put v]) ++ [Action.get] := by simp
  have h1 : Action.bye ∉ pre ++ [Action.put v] := by simp [hpre]
  have h2 : Action.bye ∉ (pre ++ [Action.put v]) ++ [Action.get] := by simp [hpre]
  rw [hsplit, connect_session u hu _ h2, connect_session u hu _ hpre,
    expectedReplies_snoc, expectedReplies_snoc, mostRecentPut_snoc_put]
  simp

/-- The witness of `put_get_roundtrip`: the Client credential, after a GET and
a PUT of 5, with a PUT of 7 followed by a GET. -/
theorem put_get_roundtrip_witness :
    Client.user.passwd = "123456" ∧ Action.bye ∉ [Action.get, Action.put 5] ∧
      (connect Client.user ([Action.get, Action.put 5] ++ [Action.put 7, Action.get])).outs =
        (connect Client.user [Action.get, Action.put 5]).outs ++ [Out.reply 7] ∧
      (connect Client.user ([Action.get, Action.put 5] ++ [Action.put 7, Action.get])).served =
        (connect Client.user [Action.get, Action.put 5]).served + 2 :=
  ⟨rfl, by decide, put_get_roundtrip Client.user rfl [Action.get, Action.put 5] (by decide) 7⟩

/-- C3: an accepted session starts with the stored value 0, and a GET offered
right after `welcome`, before any PUT, is answered with 0. -/
theorem initial_get_default (u : User) (hu : u.passwd = "123456") :
    (connect u []).state = FtpThread.session 0 ∧
      (connect u [Action.get]).outs = [Out.auth u, Out.welcome, Out.reply 0] ∧
      replies (connect u [Action.get]).outs = [0] := by
  have h := connect_append u [] [Action.get]
  rw [List.nil_append] at h
  rw [h, connect_nil_valid u hu]
  exact ⟨rfl, rfl, rfl⟩

/-- The witness of `initial_get_default`: the Client credential. -/
theorem initial_get_default_witness :
    Client.user.passwd = "123456" ∧
      (connect Client.user []).state = FtpThread.session 0 ∧
      (connect Client.user [Action.get]).outs =
        [Out.auth Client.user, Out.welcome, Out.reply 0] ∧
      replies (connect Client.user [Action.get]).outs = [0] :=
  ⟨rfl, initial_get_default Client.user rfl⟩

/-- C4: BYE is terminal.  In an accepted session that has served GETs and PUTs,
a BYE is received and puts the worker in its closed state `done`; no receive
exists in that state for any message; and whatever operations are offered
after the BYE, none is received: the worker stays `done`, it has sent nothing
beyond its sends before the BYE (no GET is answered), and the count of received
messages stays at the credential, the Authenticator signal, the earlier
operations and the one BYE. -/
theorem bye_terminal (u : User) (hu : u.passwd = "123456") (pre : List Action)
    (hpre : Action.bye ∉ pre) (post : List Action) :
    (connect u (pre ++ [Action.bye])).state = FtpThread.done ∧
      (∀ m : Msg, FtpThread.step FtpThread.done m = none) ∧
      (connect u (pre ++ Action.bye :: post)).state = FtpThread.done ∧
      (connect u (pre ++ Action.bye :: post)).outs = (connect u pre).outs ∧
      (connect u (pre ++ Action.bye :: post)).served = pre.length + 3 := by
  have hbye : connect u (pre ++ [Action.bye]) =
      { state := FtpThread.done, outs := (connect u pre).outs, served := pre.length + 3,
        blocked := false } := by
    rw [connect_append, connect_session u hu pre hpre]
    simp [Run.feedAll, Run.feed, FtpThread.step]
  have hsplit : pre ++ Action.bye :: post = (pre ++ [Action.bye]) ++ post := by simp
  have hdone := Run.feedAll_done (connect u (pre ++ [Action.bye]))
    (by rw [hbye]) (post.map Msg.act)
  rw [hsplit, connect_append u (pre ++ [Action.bye]) post]
  refine ⟨by rw [hbye], FtpThread.step_done, hdone.1, ?_, ?_⟩
  · rw [hdone.2.1, hbye]
  · rw [hdone.2.2, hbye]

/-- The witness of `bye_terminal`: the Client credential, a PUT of 4 and a GET
before the BYE, then a PUT of 9, a GET and a second BYE after it. -/
theorem bye_terminal_witness :
    Client.user.passwd = "123456" ∧ Action.bye ∉ [Action.put 4, Action.get] ∧
      ((connect Client.user ([Action.put 4, Action.get] ++ [Action.bye])).state = FtpThread.done ∧
      (∀ m : Msg, FtpThread.step FtpThread.done m = none) ∧
      (connect Client.user ([Action.put 4, Action.get] ++
          Action.bye :: [Action.put 9, Action.get, Action.bye])).state = FtpThread.done ∧
      (connect Client.user ([Action.put 4, Action.get] ++
          Action.bye :: [Action.put 9, Action.get, Action.bye])).outs =
        (connect Client.user [Action.put 4, Action.get]).outs ∧
      (connect Client.user ([Action.put 4, Action.get] ++
          Action.bye :: [Action.put 9, Action.get, Action.bye])).served =
        [Action.put 4, Action.get].length + 3) :=
  ⟨rfl, by decide,
    bye_terminal Client.user rfl [Action.put 4, Action.get] (by decide)
      [Action.put 9, Action.get, Action.bye]⟩

/-- C5: rejected sessions are inert.  For a credential whose `passwd` is not
"123456" and whatever operations are offered afterwards, the session worker
sends `sorry` and returns having received only the credential and the
Authenticator signal (nothing from `get`, `put` or `bye`, and no stored value
is ever created); and the Client, on `sorry`, issues no operation for any
script. -/
theorem rejected_inert (u : User) (hu : u.passwd ≠ "123456") (ops : List Action)
    (rand : Nat → Int) (options : List Int) :
    (connect u ops).outs = [Out.auth u, Out.sorrySig] ∧
      (connect u ops).state = FtpThread.done ∧
      (connect u ops).served = 2 ∧
      Client.onSignal rand options Out.sorrySig = [] := by
  have h := connect_append u [] ops
  rw [List.nil_append] at h
  have hdone := Run.feedAll_done (connect u []) (by rw [connect_nil_invalid u hu])
    (ops.map Msg.act)
  rw [h]
  refine ⟨?_, hdone.1, ?_, rfl⟩
  · rw [hdone.2.1, connect_nil_invalid u hu]
  · rw [hdone.2.2, connect_nil_invalid u hu]

/-- The witness of `rejected_inert`: the credential ("wcl16", "12345") with a
GET, a PUT of 3 and a BYE offered, and the script of the source. -/
theorem rejected_inert_witness :
    (User.mk "wcl16" "12345").passwd ≠ "123456" ∧
      ((connect (User.mk "wcl16" "12345") [Action.get, Action.put 3, Action.bye]).outs =
        [Out.auth (User.mk "wcl16" "12345"), Out.sorrySig] ∧
      (connect (User.mk "wcl16" "12345") [Action.get, Action.put 3, Action.bye]).state =
        FtpThread.done ∧
      (connect (User.mk "wcl16" "12345") [Action.get, Action.put 3, Action.bye]).served = 2 ∧
      Client.onSignal (fun n => (n : Int)) Client.options Out.sorrySig = []) :=
  ⟨by decide,
    rejected_inert (User.mk "wcl16" "12345") (by decide) [Action.get, Action.put 3, Action.bye]
      (fun n => (n : Int)) Client.options⟩

/-- C6: the scenario of the reference Client, for every sequence `rand` of
generated values (x0, x1, x2, x3 are `rand 0` to `rand 3`).  The credential
("wcl16", "123456") is accepted; the Client issues GET, PUT(x0), GET, PUT(x1),
GET, GET, PUT(x2), BYE; its GETs are answered 0, x0, x1 and (the second of the
two consecutive GETs) x1 again; the stored value is x2 when the BYE arrives,
after which the worker has returned; and when the entries after BYE, PUT(x3)
and GET, are offered as well, neither is received: the sends and the ten
received messages are the same and the offering side is left waiting. -/
theorem reference_scenario (rand : Nat → Int) :
    signals (mainRun rand).outs = [Out.welcome] ∧
      Client.onSignal rand Client.options Out.welcome =
        [Action.get, Action.put (rand 0), Action.get, Action.put (rand 1), Action.get,
          Action.get, Action.put (rand 2), Action.bye] ∧
      replies (mainRun rand).outs = [0, rand 0, rand 1, rand 1] ∧
      (connect Client.user
          [Action.get, Action.put (rand 0), Action.get, Action.put (rand 1), Action.get,
            Action.get, Action.put (rand 2)]).state = FtpThread.session (rand 2) ∧
      mainRun rand =
        { state := FtpThread.done,
          outs := [Out.auth Client.user, Out.welcome, Out.reply 0, Out.reply (rand 0),
            Out.reply (rand 1), Out.reply (rand 1)],
          served := 10, blocked := false } ∧
      connect Client.user
          [Action.get, Action.put (rand 0), Action.get, Action.put (rand 1), Action.get,
            Action.get, Action.put (rand 2), Action.bye, Action.put (rand 3), Action.get] =
        { state := FtpThread.done,
          outs := [Out.auth Client.user, Out.welcome, Out.reply 0, Out.reply (rand 0),
            Out.reply (rand 1), Out.reply (rand 1)],
          served := 10, blocked := true } :=
  ⟨rfl, rfl, rfl, rfl, rfl, rfl⟩

/-- C8: the Client stops at BYE.  For every script, every sequence of generated
values and wherever the loop starts, the operations the Client issues after
`welcome` are, in script order, the selections of the script entries up to and
including the first BYE entry (the whole script when it has none), and nothing
after it; for the script of the source these are exactly 8 operations, ending
with the BYE, without the final PUT and GET. -/
theorem client_stops_at_bye (rand : Nat → Int) (n : Nat) (options : List Int) :
    (Client.loop rand n options).map Action.kind =
        (throughFirstBye options).map optionKind ∧
      (Client.onSignal rand options Out.welcome).map Action.kind =
        (throughFirstBye options).map optionKind ∧
      (Client.onSignal rand options Out.welcome).length =
        min (options.findIdx (fun o => optionKind o == Kind.bye) + 1) options.length ∧
      Client.onSignal rand Client.options Out.welcome =
        [Action.get, Action.put (rand 0), Action.get, Action.put (rand 1), Action.get,
          Action.get, Action.put (rand 2), Action.bye] ∧
      (Client.onSignal rand Client.options Out.welcome).length = 8 := by
  refine ⟨Client.loop_kinds rand n options, Client.loop_kinds rand 0 options, ?_, rfl, rfl⟩
  have h := congrArg List.length (Client.loop_kinds rand 0 options)
  simpa [throughFirstBye, Client.onSignal] using h

/-- C10: last write wins.  In an accepted session offered GETs and PUTs only,
every operation is received, each GET is answered with the value of the most
recent PUT before it (0 when there is none), and the stored value is that of
the most recent PUT; so a further GET leaves the stored value as it is, two
further GETs are answered alike, and a further PUT of `v` leaves exactly `v`
stored. -/
theorem last_write_wins (u : User) (hu : u.passwd = "123456") (ops : List Action)
    (hops : Action.bye ∉ ops) (v : Int) :
    replies (connect u ops).outs = expectedReplies ops ∧
      (connect u ops).state = FtpThread.session (mostRecentPut ops) ∧
      (connect u ops).served = ops.length + 2 ∧
      (connect u (ops ++ [Action.get])).state = (connect u ops).state ∧
      replies (connect u (ops ++ [Action.get, Action.get])).outs =
        expectedReplies ops ++ [mostRecentPut ops, mostRecentPut ops] ∧
      (connect u (ops ++ [Action.put v])).state = FtpThread.session v := by
  have hg : Action.bye ∉ ops ++ [Action.get] := by simp [hops]
  have hgg : Action.bye ∉ (ops ++ [Action.get]) ++ [Action.get] := by simp [hops]
  have hp : Action.bye ∉ ops ++ [Action.put v] := by simp [hops]
  have hsplit : ops ++ [Action.get, Action.get] = (ops ++ [Action.get]) ++ [Action.get] := by
    simp
  refine ⟨?_, ?_, ?_, ?_, ?_, ?_⟩
  · rw [connect_session u hu ops hops, replies_session_outs]
  · rw [connect_session u hu ops hops]
  · rw [connect_session u hu ops hops]
  · rw [connect_session u hu _ hg, connect_session u hu ops hops, mostRecentPut_snoc_get]
  · rw [hsplit, connect_session u hu _ hgg, replies_session_outs, expectedReplies_snoc,
      expectedReplies_snoc, mostRecentPut_snoc_get]
    simp
  · rw [connect_session u hu _ hp, mostRecentPut_snoc_put]

/-- The witness of `last_write_wins`: the Client credential and the operations
GET, PUT(3), GET, PUT(8), GET, GET, whose GETs are answered 0, 3, 8, 8. -/
theorem last_write_wins_witness :
    Client.user.passwd = "123456" ∧
      Action.bye ∉ [Action.get, Action.put 3, Action.get, Action.put 8, Action.get,
        Action.get] ∧
      replies (connect Client.user
        [Action.get, Action.put 3, Action.get, Action.put 8, Action.get,
          Action.get]).outs = [0, 3, 8, 8] ∧
      expectedReplies [Action.get, Action.put 3, Action.get, Action.put 8, Action.get,
        Action.get] = [0, 3, 8, 8] :=
  ⟨rfl, by decide,
    (last_write_wins Client.user rfl
      [Action.get, Action.put 3, Action.get, Action.put 8, Action.get, Action.get]
      (by decide) 5).1.trans (by decide),
    by decide⟩

end CW2
